import Mathlib

/- Verification of the aggregation core of prometheus-metrics-combiner
(main.go): the fetch-outcome mapping of fetchURL and the drain, filter,
concatenate and failure-policy logic of aggregatorHandler.

The concurrent fan-out is modelled by the list of fetch results in the
order they are drained from the channel; nondeterministic completion
order is quantification over that list and its permutations. -/

namespace MetricsCombiner

/-- Models the Go struct result from main.go: the outcome of a single
HTTP fetch. err = none means success; Go zero values are the defaults. -/
structure result where
  body : String := ""
  err : Option String := none
deriving Repr, DecidableEq

/-- Abstract view of a completed HTTP GET response as consumed by
fetchURL: status code, status text, and the outcome of reading the
response body to completion. -/
structure HttpResponse where
  statusCode : Nat
  status : String
  bodyRead : Except String String
deriving Repr

/-- Abstract outcome of http.Get: a transport-level error or a response. -/
inductive GetOutcome where
  | transportError (msg : String)
  | ok (resp : HttpResponse)
deriving Repr

/-- Embedding of fetchURL from main.go: a transport error, a non-200
status, and a body-read error each produce a failure result with the
corresponding message; otherwise the full body is returned as a success. -/
def fetchURL (url : String) (g : GetOutcome) : result :=
  match g with
  | .transportError msg =>
    { body := "", err := some ("failed to get " ++ url ++ ": " ++ msg) }
  | .ok resp =>
    if resp.statusCode ≠ 200 then
      { body := "", err := some ("bad status for " ++ url ++ ": " ++ resp.status) }
    else
      match resp.bodyRead with
      | .error msg =>
        { body := "", err := some ("failed to read body from " ++ url ++ ": " ++ msg) }
      | .ok b => { body := b, err := none }

/-- Split a character list at every newline character: the token
boundaries used by bufio.ScanLines. Always returns a non-empty list. -/
def splitNl : List Char → List (List Char)
  | [] => [[]]
  | c :: cs =>
    if c = '\n' then [] :: splitNl cs
    else
      match splitNl cs with
      | t :: ts => (c :: t) :: ts
      | [] => [[c]]

/-- Models dropCR from bufio: drop one trailing carriage return. -/
def dropCR (l : List Char) : List Char :=
  if l.getLast? = some '\r' then l.dropLast else l

/-- The sequence of lines produced by a bufio.Scanner with the ScanLines
split function: tokens are separated by newline characters, a trailing
carriage return is stripped from each token, a final token at end of
input is produced even without a terminating newline, and input ending
in a newline yields no empty final token. -/
def scanLines (s : String) : List String :=
  let parts := splitNl s.data
  let kept := if parts.getLast? = some [] then parts.dropLast else parts
  kept.map (fun l => String.mk (dropCR l))

/-- Models strings.HasPrefix from the Go standard library. -/
def hasPfx (s p : String) : Bool :=
  p.data.isPrefixOf s.data

/-- The inner loop of aggregatorHandler over the configured prefixes:
on the first match the line plus a newline is appended and the loop
stops; with no match the accumulator is unchanged. -/
def emitLine (acc line : String) : List String → String
  | [] => acc
  | p :: rest => if hasPfx line p then acc ++ line ++ "\n" else emitLine acc line rest

/-- Per-successful-body step of aggregatorHandler: with no configured
prefixes the body is appended verbatim; otherwise every scanned line is
passed through the first-match prefix loop. -/
def processBody (prefixes : List String) (acc body : String) : String :=
  if prefixes.length = 0 then acc ++ body
  else (scanLines body).foldl (fun a line => emitLine a line prefixes) acc

/-- HTTP response as written by the handler: status code, content type
header when set, and the body text. -/
structure HandlerOutput where
  statusCode : Nat
  contentType : Option String
  body : String
deriving Repr, DecidableEq

/-- Models Go http.Error: a text/plain content type, the given status
code, and the message followed by a newline as body. -/
def httpError (msg : String) (code : Nat) : HandlerOutput :=
  { statusCode := code
    contentType := some "text/plain; charset=utf-8"
    body := msg ++ "\n" }

/-- The channel-drain loop of aggregatorHandler: results are consumed in
arrival order; failures are collected, successful bodies are filtered
and concatenated. Returns the accumulator and the collected errors. -/
def drainResults (prefixes : List String) : List result → String → List String → String × List String
  | [], acc, errs => (acc, errs)
  | r :: rest, acc, errs =>
    match r.err with
    | some e => drainResults prefixes rest acc (errs ++ [e])
    | none => drainResults prefixes rest (processBody prefixes acc r.body) errs

/-- Embedding of aggregatorHandler from main.go. The drained channel is
modelled by the list of fetch results in arrival order; logging and the
verbose flag are side effects with no influence on the response. -/
def aggregatorHandler (urls prefixes : List String) (results : List result) : HandlerOutput :=
  if urls.length = 0 then httpError "No upstream URLs configured." 500
  else
    let st := drainResults prefixes results "" []
    if st.2.length = urls.length then
      httpError "Failed to fetch one or more upstream services." 500
    else
      { statusCode := 200
        contentType := some "text/plain; charset=utf-8"
        body := st.1 }

/-- The successful results among the drained outcomes. -/
def successes (results : List result) : List result :=
  results.filter (fun r => r.err.isNone)

/-- The failed results among the drained outcomes. -/
def failures (results : List result) : List result :=
  results.filter (fun r => r.err.isSome)

/-- Bodies of the successful results, in drain order. -/
def successBodies (results : List result) : List String :=
  (successes results).map (fun r => r.body)

/-- Concatenation of a list of strings with no separator. -/
def joinAll : List String → String
  | [] => ""
  | s :: rest => s ++ joinAll rest

/-- The scanned lines of a body that match at least one configured
item, in body order. -/
def keptOf (prefixes : List String) (body : String) : List String :=
  (scanLines body).filter (fun l => prefixes.any (fun p => hasPfx l p))

/-- Contribution of one successful body to the accumulator, starting
from an empty accumulator. -/
def contribOf (prefixes : List String) (body : String) : String :=
  processBody prefixes "" body

/-- All kept lines over the successful bodies, in drain order. -/
def keptLines (prefixes : List String) (results : List result) : List String :=
  (successBodies results).flatMap (keptOf prefixes)

/-- Error messages collected by the drain loop, in drain order. -/
def errList (results : List result) : List String :=
  results.filterMap (fun r => r.err)

theorem joinAll_append (l₁ l₂ : List String) :
    joinAll (l₁ ++ l₂) = joinAll l₁ ++ joinAll l₂ := by
  induction l₁ with
  | nil => simp [joinAll, String.empty_append]
  | cons x xs ih => simp [joinAll, ih, String.append_assoc]

theorem joinAll_flatMap (l : List String) (f : String → List String) (g : String → String) :
    joinAll ((l.flatMap f).map g) = joinAll (l.map (fun x => joinAll ((f x).map g))) := by
  induction l with
  | nil => rfl
  | cons x xs ih => simp [List.flatMap_cons, List.map_append, joinAll_append, joinAll, ih]

theorem emitLine_eq (acc line : String) (prefixes : List String) :
    emitLine acc line prefixes
      = if prefixes.any (fun p => hasPfx line p) then acc ++ line ++ "\n" else acc := by
  induction prefixes with
  | nil => rfl
  | cons p rest ih =>
    cases h : hasPfx line p
    · simp [emitLine, h, ih, List.any_cons]
    · simp [emitLine, h, List.any_cons]

theorem foldEmit_eq (prefixes : List String) (lines : List String) (acc : String) :
    lines.foldl (fun a line => emitLine a line prefixes) acc
      = acc ++ joinAll ((lines.filter
          (fun l => prefixes.any (fun p => hasPfx l p))).map (fun l => l ++ "\n")) := by
  induction lines generalizing acc with
  | nil => simp [joinAll, String.append_empty]
  | cons l rest ih =>
    rw [List.foldl_cons]
    show List.foldl (fun a line => emitLine a line prefixes) (emitLine acc l prefixes) rest = _
    rw [ih, emitLine_eq]
    cases h : prefixes.any (fun p => hasPfx l p)
    · simp [h, List.filter_cons]
    · simp [h, List.filter_cons, joinAll, String.append_assoc]

theorem processBody_nil (acc body : String) : processBody [] acc body = acc ++ body := rfl

theorem processBody_cons (prefixes : List String) (hne : prefixes ≠ []) (acc body : String) :
    processBody prefixes acc body
      = acc ++ joinAll ((keptOf prefixes body).map (fun l => l ++ "\n")) := by
  have h0 : ¬ prefixes.length = 0 := by simpa [List.length_eq_zero] using hne
  simp [processBody, h0, foldEmit_eq, keptOf]

theorem processBody_shift (prefixes : List String) (acc body : String) :
    processBody prefixes acc body = acc ++ processBody prefixes "" body := by
  cases hp : prefixes with
  | nil => simp [processBody_nil, String.empty_append]
  | cons p rest =>
    rw [processBody_cons (p :: rest) (by simp) acc body,
      processBody_cons (p :: rest) (by simp) "" body, String.empty_append]

theorem drain_fst (prefixes : List String) (rs : List result) (acc : String) (errs : List String) :
    (drainResults prefixes rs acc errs).1
      = acc ++ joinAll ((successBodies rs).map (contribOf prefixes)) := by
  induction rs generalizing acc errs with
  | nil => simp [drainResults, successBodies, successes, joinAll, String.append_empty]
  | cons r rest ih =>
    cases h : r.err with
    | some e =>
      simp [drainResults, h, ih, successBodies, successes, List.filter_cons]
    | none =>
      simp only [drainResults, h]
      rw [ih, processBody_shift]
      simp [successBodies, successes, List.filter_cons, h, joinAll, contribOf,
        String.append_assoc]

theorem drain_snd (prefixes : List String) (rs : List result) (acc : String) (errs : List String) :
    (drainResults prefixes rs acc errs).2 = errs ++ errList rs := by
  induction rs generalizing acc errs with
  | nil => simp [drainResults, errList]
  | cons r rest ih =>
    cases h : r.err with
    | some e => simp [drainResults, h, ih, errList, List.filterMap_cons]
    | none => simp [drainResults, h, ih, errList, List.filterMap_cons]

theorem errList_length_le (rs : List result) : (errList rs).length ≤ rs.length :=
  List.length_filterMap_le _ _

theorem errList_length_eq_iff (rs : List result) :
    (errList rs).length = rs.length ↔ successes rs = [] := by
  induction rs with
  | nil => simp [errList, successes]
  | cons r rest ih =>
    cases h : r.err with
    | some e =>
      simpa [errList, successes, List.filterMap_cons, List.filter_cons, h] using ih
    | none =>
      have hle := errList_length_le rest
      simp only [errList, List.filterMap_cons, h] at hle ⊢
      simp [successes, List.filter_cons, h]
      omega

theorem successes_idem (rs : List result) : successes (successes rs) = successes rs := by
  simp [successes, List.filter_filter]

theorem handler_pos (urls prefixes : List String) (results : List result) (hne : urls ≠ []) :
    aggregatorHandler urls prefixes results
      = if (errList results).length = urls.length then
          httpError "Failed to fetch one or more upstream services." 500
        else
          { statusCode := 200
            contentType := some "text/plain; charset=utf-8"
            body := joinAll ((successBodies results).map (contribOf prefixes)) } := by
  have h0 : ¬ urls.length = 0 := by simpa [List.length_eq_zero] using hne
  simp [aggregatorHandler, h0, drain_fst, drain_snd, String.empty_append]

theorem handler_success (urls prefixes : List String) (results : List result)
    (hne : urls ≠ []) (hlen : results.length = urls.length)
    (hs : successes results ≠ []) :
    aggregatorHandler urls prefixes results
      = { statusCode := 200
          contentType := some "text/plain; charset=utf-8"
          body := joinAll ((successBodies results).map (contribOf prefixes)) } := by
  rw [handler_pos urls prefixes results hne, if_neg]
  intro hc
  exact hs ((errList_length_eq_iff results).mp (hc.trans hlen.symm))

theorem handler_total (urls prefixes : List String) (results : List result)
    (hne : urls ≠ []) (hlen : results.length = urls.length)
    (hs : successes results = []) :
    aggregatorHandler urls prefixes results
      = httpError "Failed to fetch one or more upstream services." 500 := by
  rw [handler_pos urls prefixes results hne, if_pos]
  rw [(errList_length_eq_iff results).mpr hs, hlen]

theorem splitNl_ne_nil (l : List Char) : splitNl l ≠ [] := by
  cases l with
  | nil => simp [splitNl]
  | cons c cs =>
    by_cases h : c = '\n'
    · simp [splitNl, h]
    · cases hs : splitNl cs <;> simp [splitNl, h, hs]

theorem splitNl_append (x y : List Char) :
    splitNl (x ++ '\n' :: y) = splitNl x ++ splitNl y := by
  induction x with
  | nil => simp [splitNl]
  | cons c cs ih =>
    by_cases h : c = '\n'
    · simp [splitNl, h, ih]
    · cases hs : splitNl cs with
      | nil => exact absurd hs (splitNl_ne_nil cs)
      | cons t ts => simp [splitNl, h, ih, hs]

theorem splitNl_no_nl (l : List Char) (h : '\n' ∉ l) : splitNl l = [l] := by
  induction l with
  | nil => rfl
  | cons c cs ih =>
    have hc : c ≠ '\n' := fun e => h (by simp [e])
    have hcs : '\n' ∉ cs := fun m => h (by simp [m])
    simp [splitNl, hc, ih hcs]

theorem ne_empty_data (t : String) (h : t ≠ "") : t.data ≠ [] :=
  fun hd => h (String.ext (by simp [hd]))

theorem scanLines_nl_concat (b : String) :
    scanLines (b ++ "\n") = (splitNl b.data).map (fun l => String.mk (dropCR l)) := by
  have hd : (b ++ "\n").data = b.data ++ '\n' :: [] := by rw [String.data_append]
  simp only [scanLines, hd, splitNl_append, splitNl]
  simp [List.getLast?_concat, List.dropLast_concat]

theorem scanLines_unterminated (b t : String) (ht : t ≠ "") (hnn : '\n' ∉ t.data) :
    scanLines (b ++ "\n" ++ t) = scanLines (b ++ "\n") ++ [String.mk (dropCR t.data)] := by
  have hd : (b ++ "\n" ++ t).data = b.data ++ '\n' :: t.data := by
    rw [String.data_append, String.data_append]
    simp
  have h1 : splitNl (b ++ "\n" ++ t).data = splitNl b.data ++ [t.data] := by
    rw [hd, splitNl_append, splitNl_no_nl t.data hnn]
  have h2 : t.data ≠ [] := ne_empty_data t ht
  rw [scanLines_nl_concat]
  simp only [scanLines, h1]
  rw [List.getLast?_concat, if_neg (by simp [h2])]
  simp

theorem scanLines_single (t : String) (ht : t ≠ "") (hnn : '\n' ∉ t.data) :
    scanLines t = [String.mk (dropCR t.data)] := by
  simp only [scanLines, splitNl_no_nl t.data hnn]
  rw [if_neg (by simp [ne_empty_data t ht])]
  rfl

theorem joinAll_nl_ends (L : List String) (h : L ≠ []) :
    ∃ s, joinAll (L.map (fun l => l ++ "\n")) = s ++ "\n" := by
  induction L with
  | nil => exact absurd rfl h
  | cons x rest ih =>
    cases rest with
    | nil => exact ⟨x, by simp [joinAll, String.append_empty]⟩
    | cons y ys =>
      obtain ⟨s, hs⟩ := ih (by simp)
      exact ⟨(x ++ "\n") ++ s, by rw [List.map_cons, joinAll, hs]; simp [String.append_assoc]⟩

/-- C1: with a non-empty target list, the response is the fixed total-failure
error exactly when every drained outcome failed; with at least one success
the response is a 200 combined body built from the successful outcomes
alone, the failed outcomes contributing nothing. -/
theorem aggregate_total_failure_iff (urls prefixes : List String) (results : List result)
    (hne : urls ≠ []) (hlen : results.length = urls.length) :
    (aggregatorHandler urls prefixes results
        = httpError "Failed to fetch one or more upstream services." 500
      ↔ successes results = []) ∧
    (successes results ≠ [] →
      (aggregatorHandler urls prefixes results).statusCode = 200 ∧
      (aggregatorHandler urls prefixes results).body
        = (drainResults prefixes (successes results) "" []).1) := by
  constructor
  · constructor
    · intro h
      by_contra hs
      rw [handler_success urls prefixes results hne hlen hs] at h
      exact absurd (congrArg HandlerOutput.statusCode h) (by simp [httpError])
    · intro hs
      exact handler_total urls prefixes results hne hlen hs
  · intro hs
    rw [handler_success urls prefixes results hne hlen hs]
    refine ⟨rfl, ?_⟩
    have hsb : successBodies (successes results) = successBodies results := by
      rw [successBodies, successBodies, successes_idem]
    show joinAll ((successBodies results).map (contribOf prefixes)) = _
    rw [drain_fst, String.empty_append, hsb]

/-- Witness for C1: one failure and one success among two targets gives a
200 response carrying exactly the successful body. -/
theorem aggregate_total_failure_iff_witness :
    (aggregatorHandler ["u1", "u2"] [] [⟨"", some "e1"⟩, ⟨"ok\n", none⟩]).statusCode = 200 ∧
    (aggregatorHandler ["u1", "u2"] [] [⟨"", some "e1"⟩, ⟨"ok\n", none⟩]).body = "ok\n" := by
  have h := (aggregate_total_failure_iff ["u1", "u2"] [] [⟨"", some "e1"⟩, ⟨"ok\n", none⟩]
    (by decide) (by decide)).2 (by decide)
  exact ⟨h.1, h.2.trans (by decide)⟩

/-- C2: with a non-empty filter the contribution appended to the accumulator
is exactly the subsequence of scanned lines matching at least one configured
item, in body order, each emitted once with a newline appended. -/
theorem nonempty_filter_keeps_matching_lines (prefixes : List String) (acc body : String)
    (hne : prefixes ≠ []) :
    processBody prefixes acc body
      = acc ++ joinAll ((keptOf prefixes body).map (fun l => l ++ "\n")) :=
  processBody_cons prefixes hne acc body

/-- Witness for C2: a line matching two configured items is emitted once;
a matching line is kept and a non-matching line is dropped. -/
theorem nonempty_filter_keeps_matching_lines_witness :
    processBody ["metric_", "m"] "acc|" "metric_a 1\nother 2\nm_b 3"
      = "acc|metric_a 1\nm_b 3\n" :=
  (nonempty_filter_keeps_matching_lines ["metric_", "m"] "acc|" "metric_a 1\nother 2\nm_b 3"
    (by decide)).trans (by decide)

/-- C3: with the empty target list the handler returns the fixed
configuration-error message with status 500 for every drained result list
and filter, and that message differs from the total-failure message. -/
theorem empty_targets_config_error (prefixes : List String) (results : List result) :
    aggregatorHandler [] prefixes results = httpError "No upstream URLs configured." 500 ∧
    "No upstream URLs configured." ≠ "Failed to fetch one or more upstream services." :=
  ⟨rfl, by decide⟩

/-- C4: for a readable response, fetchURL fails exactly when the status code
is not 200, with the status text in the error message, and otherwise
succeeds with the full body; a transport-level failure also fails. -/
theorem fetch_outcome_mapping (url : String) (resp : HttpResponse) (b : String)
    (hb : resp.bodyRead = Except.ok b) :
    ((fetchURL url (GetOutcome.ok resp)).err.isSome ↔ resp.statusCode ≠ 200) ∧
    (resp.statusCode ≠ 200 →
      (fetchURL url (GetOutcome.ok resp)).err
        = some ("bad status for " ++ url ++ ": " ++ resp.status)) ∧
    (resp.statusCode = 200 →
      fetchURL url (GetOutcome.ok resp) = { body := b, err := none }) ∧
    ∀ msg, (fetchURL url (GetOutcome.transportError msg)).err.isSome := by
  refine ⟨?_, ?_, ?_, ?_⟩
  · by_cases h : resp.statusCode = 200 <;> simp [fetchURL, h, hb]
  · intro h
    simp [fetchURL, h]
  · intro h
    simp [fetchURL, h, hb]
  · intro msg
    simp [fetchURL]

/-- Witness for C4: a 503 response with a readable body maps to a failure
whose message carries the status text. -/
theorem fetch_outcome_mapping_witness :
    (fetchURL "http://u" (GetOutcome.ok ⟨503, "503 Service Unavailable", Except.ok "ignored"⟩)).err
      = some "bad status for http://u: 503 Service Unavailable" :=
  ((fetch_outcome_mapping "http://u" ⟨503, "503 Service Unavailable", Except.ok "ignored"⟩
    "ignored" rfl).2.1 (by decide)).trans (by decide)

/-- C5: the drained order of the fetch outcomes never changes which bodies
and which kept lines make up the combined output, only possibly their
order: the multisets agree across permutations, the status is unchanged,
and the output body is exactly the join of those contributions. -/
theorem drain_order_irrelevant (urls prefixes : List String) (results₁ results₂ : List result)
    (hperm : results₁.Perm results₂)
    (hne : urls ≠ []) (hlen : results₁.length = urls.length)
    (hs : successes results₁ ≠ []) :
    Multiset.ofList (successBodies results₁) = Multiset.ofList (successBodies results₂) ∧
    Multiset.ofList (keptLines prefixes results₁)
      = Multiset.ofList (keptLines prefixes results₂) ∧
    (aggregatorHandler urls prefixes results₁).statusCode
      = (aggregatorHandler urls prefixes results₂).statusCode ∧
    (prefixes = [] →
      (aggregatorHandler urls prefixes results₁).body = joinAll (successBodies results₁)) ∧
    (prefixes ≠ [] →
      (aggregatorHandler urls prefixes results₁).body
        = joinAll ((keptLines prefixes results₁).map (fun l => l ++ "\n"))) := by
  have hpb : (successBodies results₁).Perm (successBodies results₂) :=
    (hperm.filter _).map _
  have hlen₂ : results₂.length = urls.length := hperm.length_eq ▸ hlen
  have hs₂ : successes results₂ ≠ [] := fun h2 =>
    hs (List.Perm.eq_nil (h2 ▸ hperm.filter _))
  refine ⟨Multiset.coe_eq_coe.mpr hpb, ?_, ?_, ?_, ?_⟩
  · exact Multiset.coe_eq_coe.mpr (hpb.flatMap_right _)
  · rw [handler_success urls prefixes results₁ hne hlen hs,
      handler_success urls prefixes results₂ hne hlen₂ hs₂]
  · rintro rfl
    rw [handler_success urls [] results₁ hne hlen hs]
    show joinAll ((successBodies results₁).map (contribOf [])) = _
    have hid : contribOf [] = fun b => b :=
      funext fun b => by rw [contribOf, processBody_nil, String.empty_append]
    rw [hid, List.map_id']
  · intro hp
    rw [handler_success urls prefixes results₁ hne hlen hs]
    show joinAll ((successBodies results₁).map (contribOf prefixes)) = _
    rw [keptLines, joinAll_flatMap]
    have hfn : contribOf prefixes
        = fun b => joinAll ((keptOf prefixes b).map (fun l => l ++ "\n")) :=
      funext fun b => by rw [contribOf, processBody_cons prefixes hp, String.empty_append]
    rw [hfn]

/-- Witness for C5: draining a failure and a success in either order gives
the same status and the same single kept line. -/
theorem drain_order_irrelevant_witness :
    (aggregatorHandler ["a", "b"] ["m"] [⟨"", some "e"⟩, ⟨"m1\n", none⟩]).statusCode
      = (aggregatorHandler ["a", "b"] ["m"] [⟨"m1\n", none⟩, ⟨"", some "e"⟩]).statusCode ∧
    (aggregatorHandler ["a", "b"] ["m"] [⟨"", some "e"⟩, ⟨"m1\n", none⟩]).body = "m1\n" := by
  have h := drain_order_irrelevant ["a", "b"] ["m"]
    [⟨"", some "e"⟩, ⟨"m1\n", none⟩] [⟨"m1\n", none⟩, ⟨"", some "e"⟩]
    (by decide) (by decide) (by decide) (by decide)
  exact ⟨h.2.2.1, (h.2.2.2.2 (by decide)).trans (by decide)⟩

/-- C6: with an empty filter every successful body is appended verbatim and
the combined body is the plain concatenation of the successful bodies in
drain order, with no separator inserted. -/
theorem empty_filter_verbatim (urls : List String) (results : List result) (acc body : String)
    (hne : urls ≠ []) (hlen : results.length = urls.length)
    (hs : successes results ≠ []) :
    processBody [] acc body = acc ++ body ∧
    (aggregatorHandler urls [] results).body = joinAll (successBodies results) := by
  refine ⟨processBody_nil acc body, ?_⟩
  rw [handler_success urls [] results hne hlen hs]
  show joinAll ((successBodies results).map (contribOf [])) = _
  have hid : contribOf [] = fun b => b :=
    funext fun b => by rw [contribOf, processBody_nil, String.empty_append]
  rw [hid, List.map_id']

/-- Witness for C6: two bodies without trailing newlines are joined
directly with no separator. -/
theorem empty_filter_verbatim_witness :
    (aggregatorHandler ["u1", "u2"] [] [⟨"ab", none⟩, ⟨"cd", none⟩]).body = "abcd" :=
  ((empty_filter_verbatim ["u1", "u2"] [⟨"ab", none⟩, ⟨"cd", none⟩] "" ""
    (by decide) (by decide) (by decide)).2).trans (by decide)

/-- C7: whenever at least one drained outcome is successful the response
has status 200, the UTF-8 text content type, and body exactly equal to the
accumulator content, even when that accumulator is empty. -/
theorem combined_body_response (urls prefixes : List String) (results : List result)
    (hne : urls ≠ []) (hlen : results.length = urls.length)
    (hs : successes results ≠ []) :
    (aggregatorHandler urls prefixes results).statusCode = 200 ∧
    (aggregatorHandler urls prefixes results).contentType = some "text/plain; charset=utf-8" ∧
    (aggregatorHandler urls prefixes results).body = (drainResults prefixes results "" []).1 := by
  rw [handler_success urls prefixes results hne hlen hs]
  refine ⟨rfl, rfl, ?_⟩
  show joinAll ((successBodies results).map (contribOf prefixes)) = _
  rw [drain_fst, String.empty_append]

/-- Witness for C7: a successful body filtered to nothing still yields a
200 response with the empty accumulator as body and the text content type. -/
theorem combined_body_response_witness :
    (aggregatorHandler ["u"] ["zz"] [⟨"abc", none⟩]).statusCode = 200 ∧
    (aggregatorHandler ["u"] ["zz"] [⟨"abc", none⟩]).contentType
      = some "text/plain; charset=utf-8" ∧
    (aggregatorHandler ["u"] ["zz"] [⟨"abc", none⟩]).body = "" := by
  have h := combined_body_response ["u"] ["zz"] [⟨"abc", none⟩]
    (by decide) (by decide) (by decide)
  exact ⟨h.1, h.2.1, h.2.2.trans (by decide)⟩

/-- C8: filtering is a pure function of the configured items, the
accumulator and the body: equal inputs give identical outputs. -/
theorem filtering_deterministic (prefixes₁ prefixes₂ : List String)
    (acc₁ acc₂ body₁ body₂ : String)
    (hp : prefixes₁ = prefixes₂) (ha : acc₁ = acc₂) (hb : body₁ = body₂) :
    processBody prefixes₁ acc₁ body₁ = processBody prefixes₂ acc₂ body₂ := by
  rw [hp, ha, hb]

/-- Witness for C8: two applications at the same concrete input agree. -/
theorem filtering_deterministic_witness :
    processBody ["m"] "" "m1\nx2" = processBody ["m"] "" "m1\nx2" :=
  filtering_deterministic ["m"] ["m"] "" "" "m1\nx2" "m1\nx2" rfl rfl rfl

/-- C9: with a non-empty filter the contribution is newline-normalized:
it is empty or ends in a newline, it is the join of the kept lines each
followed by exactly one newline, and an unterminated final line is still
tested and, on a match, emitted with a newline appended. -/
theorem filtered_newline_normalized (prefixes : List String) (body : String)
    (hne : prefixes ≠ []) :
    (processBody prefixes "" body = "" ∨
      ∃ s, processBody prefixes "" body = s ++ "\n") ∧
    processBody prefixes "" body
      = joinAll ((keptOf prefixes body).map (fun l => l ++ "\n")) ∧
    (∀ t : String, t ≠ "" → '\n' ∉ t.data →
      processBody prefixes "" t
        = if prefixes.any (fun p => hasPfx (String.mk (dropCR t.data)) p)
          then String.mk (dropCR t.data) ++ "\n" else "") ∧
    (∀ b t : String, t ≠ "" → '\n' ∉ t.data →
      processBody prefixes "" (b ++ "\n" ++ t)
        = processBody prefixes "" (b ++ "\n")
          ++ (if prefixes.any (fun p => hasPfx (String.mk (dropCR t.data)) p)
              then String.mk (dropCR t.data) ++ "\n" else "")) := by
  have hchar : ∀ bb : String, processBody prefixes "" bb
      = joinAll ((keptOf prefixes bb).map (fun l => l ++ "\n")) := fun bb => by
    rw [processBody_cons prefixes hne, String.empty_append]
  refine ⟨?_, hchar body, ?_, ?_⟩
  · cases hk : keptOf prefixes body with
    | nil =>
      left
      rw [hchar body, hk]
      rfl
    | cons x xs =>
      right
      obtain ⟨s, hs⟩ := joinAll_nl_ends (keptOf prefixes body) (by rw [hk]; simp)
      exact ⟨s, (hchar body).trans hs⟩
  · intro t ht hnn
    rw [hchar t, keptOf, scanLines_single t ht hnn]
    cases h : prefixes.any (fun p => hasPfx (String.mk (dropCR t.data)) p)
    · simp [List.filter_cons, h, joinAll]
    · simp [List.filter_cons, h, joinAll, String.append_empty]
  · intro b t ht hnn
    rw [hchar (b ++ "\n" ++ t), hchar (b ++ "\n"), keptOf, keptOf,
      scanLines_unterminated b t ht hnn, List.filter_append, List.map_append, joinAll_append]
    congr 1
    cases h : prefixes.any (fun p => hasPfx (String.mk (dropCR t.data)) p)
    · simp [List.filter_cons, h, joinAll]
    · simp [List.filter_cons, h, joinAll, String.append_empty]

/-- Witness for C9: a matching final line without a trailing newline is
emitted with a newline appended. -/
theorem filtered_newline_normalized_witness :
    processBody ["m"] "" "m1\nm2" = "m1\nm2\n" :=
  ((filtered_newline_normalized ["m"] "m1\nm2" (by decide)).2.1).trans (by decide)

/-- C10: a non-empty filter containing the empty string keeps every scanned
line with a newline appended, which is not equivalent to the verbatim copy
performed by an empty filter. -/
theorem empty_string_pfx_matches_all (prefixes : List String) (body : String)
    (hmem : "" ∈ prefixes) :
    processBody prefixes "" body
      = joinAll ((scanLines body).map (fun l => l ++ "\n")) ∧
    ∃ b, processBody [""] "" b ≠ processBody [] "" b := by
  have hne : prefixes ≠ [] := by
    rintro rfl
    exact List.not_mem_nil "" hmem
  refine ⟨?_, ⟨"a", by decide⟩⟩
  rw [processBody_cons prefixes hne, String.empty_append, keptOf,
    List.filter_eq_self.mpr fun l hl => List.any_eq_true.mpr ⟨"", hmem, by simp [hasPfx]⟩]

/-- Witness for C10: with the empty string among the configured items every
line of the body is kept and newline-terminated. -/
theorem empty_string_pfx_matches_all_witness :
    processBody ["x", ""] "" "ab\ncd" = "ab\ncd\n" :=
  ((empty_string_pfx_matches_all ["x", ""] "ab\ncd" (by decide)).1).trans (by decide)


end MetricsCombiner
